import Mathlib

/-!
Verification of the Google Workspace administration scripts in this
repository: the inactive-user audit pipeline (hybrid Reports/Directory
inactivity classification, license handling, suspension executors) and
the batched group-ownership audit with its persisted checkpoint.

Timestamps are modelled as integer milliseconds since the epoch, the
value of `Date.getTime()` in the source.  The JavaScript object used as
a login map is modelled as an association list keyed by e-mail address.
External API calls are modelled by their documented semantics: the
Reports API returns exactly the login activities inside the requested
time window, and mutating Directory / License Manager calls are
represented by an oracle giving each call's outcome, while the list of
calls the code actually issues is tracked explicitly.
-/

namespace AppScripts

/-- Milliseconds since the epoch, as produced by `Date.getTime()`. -/
abbrev Time := Int

/-- JavaScript `toLowerCase`, applied to e-mail addresses. -/
def lowerEmail (s : String) : String := s.map Char.toLower

/-- A Directory API user record, restricted to the fields the scripts
read.  `lastLoginTime` is `none` when the API omits the field. -/
structure DirUser where
  primaryEmail : String
  lastLoginTime : Option Time
  suspended : Bool
  name : Option String
  orgUnitPath : Option String
  licenseString : Option String
deriving DecidableEq, Repr

/-- A login activity returned by the Reports API.  `actorEmail` is
`none` for system events that carry no actor e-mail. -/
structure Activity where
  actorEmail : Option String
  time : Time
deriving DecidableEq, Repr

/-- Reading the login-map object: `loginMap[email]`. -/
def lookupLogin (m : List (String × Time)) (email : String) : Option Time :=
  (m.find? (fun p => p.1 == email)).map (fun p => p.2)

/-- One update of the login map, translating
`if (!loginMap[email] || new Date(t) > new Date(loginMap[email])) loginMap[email] = t`:
a fresh key is appended, an existing key is overwritten only by a
strictly later time. -/
def insertLogin (m : List (String × Time)) (email : String) (t : Time) :
    List (String × Time) :=
  match lookupLogin m email with
  | none => m ++ [(email, t)]
  | some prev =>
      if prev < t then m.map (fun p => if p.1 == email then (email, t) else p) else m

/-- The Reports API retention horizon: 180 days in milliseconds,
`180 * 24 * 60 * 60 * 1000` in the source. -/
def reportsHorizonMs : Int := 180 * 24 * 60 * 60 * 1000

/-- Start of the window queried by `getLoginActivityFromReports`:
`cutoffDate > maxReportsHistory ? cutoffDate : maxReportsHistory`
where `maxReportsHistory = now - 180 days`. -/
def reportsStartDate (cutoffDate now : Time) : Time :=
  if cutoffDate > now - reportsHorizonMs then cutoffDate else now - reportsHorizonMs

/-- The body of the activity loop in `getLoginActivityFromReports`:
system events without an actor e-mail are skipped, otherwise the login
map is updated under the lower-cased actor e-mail. -/
def loginStep (m : List (String × Time)) (a : Activity) : List (String × Time) :=
  match a.actorEmail with
  | none => m
  | some e => insertLogin m (lowerEmail e) a.time

/-- `getLoginActivityFromReports`: builds the per-user most-recent-login
map from the activities of the queried window.  The Reports API call is
modelled as returning exactly the login activities whose time lies in
the requested window `[startDate, now]`; `activities` is the full
activity log.  Activities without an actor e-mail are skipped, and per
e-mail the most recent time is kept. -/
def getLoginActivityFromReports (activities : List Activity)
    (cutoffDate now : Time) : List (String × Time) :=
  let startDate := reportsStartDate cutoffDate now
  let windowed := activities.filter (fun a => startDate ≤ a.time && a.time ≤ now)
  windowed.foldl loginStep []

/-- `checkIfUserInactive` (license-first audit script): hybrid check,
Reports API data first, then the Directory `lastLoginTime` fallback.
Returns `true` when the user is INACTIVE. -/
def checkIfUserInactive (user : DirUser) (reportsLoginData : List (String × Time))
    (cutoffDate : Time) : Bool :=
  let userEmail := lowerEmail user.primaryEmail
  match lookupLogin reportsLoginData userEmail with
  | some reportsLastLogin =>
      if cutoffDate ≤ reportsLastLogin then false
      else
        match user.lastLoginTime with
        | some directoryLastLogin =>
            if cutoffDate ≤ directoryLastLogin then false else true
        | none => true
  | none =>
      match user.lastLoginTime with
      | some directoryLastLogin =>
          if cutoffDate ≤ directoryLastLogin then false else true
      | none => true

/-- One evaluation of the filter callback inside `getInactiveUsers`
(auto-run audit script): returns `none` when the user is ACTIVE
(filtered out) and `some` of the kept record when INACTIVE.  For a kept
user the callback overwrites `lastLoginTime` with the Reports value
when the login map has an entry. -/
def classifyUser (reportsLoginData : List (String × Time)) (cutoffDate : Time)
    (user : DirUser) : Option DirUser :=
  let userEmail := lowerEmail user.primaryEmail
  let activeByReports : Bool :=
    match lookupLogin reportsLoginData userEmail with
    | some reportsLastLogin => cutoffDate ≤ reportsLastLogin
    | none => false
  if activeByReports then none
  else
    let activeByDirectory : Bool :=
      match user.lastLoginTime with
      | some directoryLastLogin => cutoffDate ≤ directoryLastLogin
      | none => false
    if activeByDirectory then none
    else
      some { user with
              lastLoginTime :=
                match lookupLogin reportsLoginData userEmail with
                | some t => some t
                | none => user.lastLoginTime }

/-- `getInactiveUsers` (auto-run audit script): fetch the login map for
the window, then keep exactly the users the filter callback keeps. -/
def getInactiveUsers (users : List DirUser) (activities : List Activity)
    (cutoffDate now : Time) : List DirUser :=
  let reportsLoginData := getLoginActivityFromReports activities cutoffDate now
  users.filterMap (classifyUser reportsLoginData cutoffDate)

/-- The later of two optional timestamps; follows the wording of the
spec for the derived effective last-login. -/
def optionMaxTime : Option Time → Option Time → Option Time
  | none, b => b
  | some a, none => some a
  | some a, some b => some (max a b)

/-- The most recent login activity of the given (lower-cased) e-mail
inside the bounded window; follows the wording of the spec, part (a) of
the effective last-login. -/
def matchingMax : List Activity → String → Option Time
  | [], _ => none
  | a :: l, email =>
      let rest := matchingMax l email
      match a.actorEmail with
      | some e =>
          if lowerEmail e == email then optionMaxTime (some a.time) rest else rest
      | none => rest

/-- Part (a) of the spec's effective last-login: most recent login
event of the user inside the window `[reportsStartDate, now]`. -/
def maxWindowLogin (activities : List Activity) (cutoffDate now : Time)
    (email : String) : Option Time :=
  matchingMax
    (activities.filter
      (fun a => reportsStartDate cutoffDate now ≤ a.time && a.time ≤ now))
    email

/-- The last-login cell written by `exportToSheet`:
`user.lastLoginTime || 'Never'`. -/
def lastLoginCell (u : DirUser) : String :=
  match u.lastLoginTime with
  | some t => toString t
  | none => "Never"

/-- C1: the classifier returns ACTIVE exactly when the bounded-window
login map holds an entry for the lower-cased e-mail at or after the
cutoff, or the directory last-login field is present at or after the
cutoff (boundary inclusive); otherwise INACTIVE, in particular when
both signals are absent.  The auto-run filter callback agrees with the
license-first `checkIfUserInactive`. -/
theorem C1_inactivity_classifier (user : DirUser) (m : List (String × Time))
    (cutoffDate : Time) :
    (checkIfUserInactive user m cutoffDate = false ↔
      (∃ t, lookupLogin m (lowerEmail user.primaryEmail) = some t ∧ cutoffDate ≤ t) ∨
      (∃ t, user.lastLoginTime = some t ∧ cutoffDate ≤ t)) ∧
    (classifyUser m cutoffDate user = none ↔
      checkIfUserInactive user m cutoffDate = false) := by
  constructor
  · unfold checkIfUserInactive
    cases h1 : lookupLogin m (lowerEmail user.primaryEmail) <;>
      cases h2 : user.lastLoginTime <;>
      simp_all
    rename_i t1 t2
    constructor
    · intro h
      rcases le_or_lt cutoffDate t1 with h1c | h1c
      · exact Or.inl h1c
      · exact Or.inr (h h1c)
    · rintro (hc | hc) hlt
      · exact absurd hlt (not_lt.mpr hc)
      · exact hc
  · unfold classifyUser checkIfUserInactive
    cases h1 : lookupLogin m (lowerEmail user.primaryEmail) <;>
      cases h2 : user.lastLoginTime <;>
      simp_all

/-- C3: the Reports query window start is the clamp of the cutoff to
the 180-day retention horizon: it equals `max cutoff (now - 180d)`, so
it is the cutoff when the cutoff lies inside the horizon, the horizon
start when the cutoff is older, and it never lies before the horizon
start. -/
theorem C3_window_clamp (cutoffDate now : Time) :
    reportsStartDate cutoffDate now = max cutoffDate (now - reportsHorizonMs) ∧
    now - reportsHorizonMs ≤ reportsStartDate cutoffDate now ∧
    cutoffDate ≤ reportsStartDate cutoffDate now := by
  unfold reportsStartDate
  by_cases h : now - reportsHorizonMs < cutoffDate
  · rw [if_pos h, max_eq_left h.le]
    exact ⟨rfl, h.le, le_refl _⟩
  · have h2 : cutoffDate ≤ now - reportsHorizonMs := not_lt.mp h
    rw [if_neg h, max_eq_right h2]
    exact ⟨rfl, le_refl _, h2⟩

theorem optionMaxTime_none_right (x : Option Time) : optionMaxTime x none = x := by
  cases x <;> rfl

theorem lookupLogin_cons (k : String) (v : Time) (rest : List (String × Time))
    (email : String) :
    lookupLogin ((k, v) :: rest) email =
      if k == email then some v else lookupLogin rest email := by
  unfold lookupLogin
  rw [List.find?]
  by_cases h : k == email
  · simp [h]
  · simp only [h]
    simp at h
    simp [h]

theorem lookupLogin_append (m1 m2 : List (String × Time)) (email : String) :
    lookupLogin (m1 ++ m2) email =
      match lookupLogin m1 email with
      | some v => some v
      | none => lookupLogin m2 email := by
  induction m1 with
  | nil => simp [lookupLogin]
  | cons p rest ih =>
      obtain ⟨pk, pv⟩ := p
      rw [List.cons_append, lookupLogin_cons, lookupLogin_cons]
      by_cases h : (pk == email) = true
      · rw [if_pos h, if_pos h]
      · rw [if_neg h, if_neg h, ih]

theorem lookupLogin_replace_self (m : List (String × Time)) (k : String) (t : Time) :
    lookupLogin (m.map (fun p => if p.1 == k then (k, t) else p)) k =
      (lookupLogin m k).map (fun _ => t) := by
  induction m with
  | nil => rfl
  | cons p rest ih =>
      obtain ⟨pk, pv⟩ := p
      rw [List.map_cons]
      by_cases h : (pk == k) = true
      · have hhead : (if ((pk, pv).1 == k) = true then (k, t) else (pk, pv)) = (k, t) := by
          simp [h]
        rw [hhead, lookupLogin_cons, lookupLogin_cons, if_pos h, if_pos (by simp)]
        rfl
      · have hhead : (if ((pk, pv).1 == k) = true then (k, t) else (pk, pv)) = (pk, pv) := by
          simp [h]
        rw [hhead, lookupLogin_cons, lookupLogin_cons, if_neg h, if_neg h]
        exact ih

theorem lookupLogin_replace_ne (m : List (String × Time)) (k : String) (t : Time)
    (email : String) (h : (k == email) = false) :
    lookupLogin (m.map (fun p => if p.1 == k then (k, t) else p)) email =
      lookupLogin m email := by
  induction m with
  | nil => rfl
  | cons p rest ih =>
      obtain ⟨pk, pv⟩ := p
      rw [List.map_cons]
      by_cases hpk : (pk == k) = true
      · have hk : pk = k := by simpa using hpk
        have hpke : (pk == email) = false := by rw [hk]; exact h
        have hhead : (if ((pk, pv).1 == k) = true then (k, t) else (pk, pv)) = (k, t) := by
          simp [hpk]
        rw [hhead, lookupLogin_cons, lookupLogin_cons,
          if_neg (by simp [h]), if_neg (by simp [hpke])]
        exact ih
      · have hhead : (if ((pk, pv).1 == k) = true then (k, t) else (pk, pv)) = (pk, pv) := by
          simp [hpk]
        rw [hhead, lookupLogin_cons, lookupLogin_cons]
        split
        · rfl
        · exact ih

theorem lookupLogin_insertLogin_self (m : List (String × Time)) (email : String)
    (t : Time) :
    lookupLogin (insertLogin m email t) email =
      some (match lookupLogin m email with
            | none => t
            | some p => max p t) := by
  cases hl : lookupLogin m email with
  | none =>
      simp only [insertLogin, hl]
      rw [lookupLogin_append, hl]
      simp [lookupLogin_cons, lookupLogin]
  | some prev =>
      simp only [insertLogin, hl]
      split
      · rename_i hlt
        rw [lookupLogin_replace_self, hl]
        simp [max_eq_right (le_of_lt hlt)]
      · rename_i hnlt
        rw [hl, max_eq_left (le_of_not_lt hnlt)]

theorem lookupLogin_insertLogin_ne (m : List (String × Time)) (k email : String)
    (t : Time) (h : (k == email) = false) :
    lookupLogin (insertLogin m k t) email = lookupLogin m email := by
  cases hl : lookupLogin m k with
  | none =>
      simp only [insertLogin, hl]
      rw [lookupLogin_append]
      cases hme : lookupLogin m email with
      | some v => rfl
      | none => simp [lookupLogin_cons, lookupLogin, h]
  | some prev =>
      simp only [insertLogin, hl]
      split
      · exact lookupLogin_replace_ne m k t email h
      · rfl

theorem lookupLogin_foldl_loginStep (l : List Activity) (m : List (String × Time))
    (email : String) :
    lookupLogin (l.foldl loginStep m) email =
      optionMaxTime (lookupLogin m email) (matchingMax l email) := by
  induction l generalizing m with
  | nil => simp [matchingMax, optionMaxTime_none_right]
  | cons a l ih =>
      rw [List.foldl_cons, ih]
      cases ha : a.actorEmail with
      | none =>
          have hstep : loginStep m a = m := by simp only [loginStep, ha]
          have hmm : matchingMax (a :: l) email = matchingMax l email := by
            simp [matchingMax, ha]
          rw [hstep, hmm]
      | some e =>
          by_cases he : (lowerEmail e == email) = true
          · have he2 : lowerEmail e = email := by simpa using he
            have hstep : loginStep m a = insertLogin m email a.time := by
              simp only [loginStep, ha, he2]
            have hmm : matchingMax (a :: l) email =
                optionMaxTime (some a.time) (matchingMax l email) := by
              simp [matchingMax, ha, he]
            rw [hstep, hmm, lookupLogin_insertLogin_self]
            cases hm : lookupLogin m email <;>
              cases hr : matchingMax l email <;>
              simp [optionMaxTime, max_assoc]
          · have hne : (lowerEmail e == email) = false := by simpa using he
            have hstep : loginStep m a = insertLogin m (lowerEmail e) a.time := by
              simp only [loginStep, ha]
            have hmm : matchingMax (a :: l) email = matchingMax l email := by
              simp [matchingMax, ha, hne]
            rw [hstep, hmm,
              lookupLogin_insertLogin_ne m (lowerEmail e) email a.time hne]

theorem lookupLogin_getLoginActivity (activities : List Activity)
    (cutoffDate now : Time) (email : String) :
    lookupLogin (getLoginActivityFromReports activities cutoffDate now) email =
      maxWindowLogin activities cutoffDate now email := by
  unfold getLoginActivityFromReports maxWindowLogin
  rw [lookupLogin_foldl_loginStep]
  rfl

theorem cutoff_le_reportsStartDate (cutoffDate now : Time) :
    cutoffDate ≤ reportsStartDate cutoffDate now := by
  unfold reportsStartDate
  split
  · exact le_refl _
  · rename_i h
    exact le_of_not_lt h

theorem matchingMax_lower_bound (l : List Activity) (email : String) (c : Time)
    (h : ∀ a ∈ l, c ≤ a.time) :
    ∀ t, matchingMax l email = some t → c ≤ t := by
  induction l with
  | nil => intro t ht; simp [matchingMax] at ht
  | cons a l ih =>
      intro t ht
      have ha : c ≤ a.time := h a (List.mem_cons_self a l)
      have hl : ∀ b ∈ l, c ≤ b.time := fun b hb => h b (List.mem_cons_of_mem a hb)
      cases hae : a.actorEmail with
      | none =>
          have hmm : matchingMax (a :: l) email = matchingMax l email := by
            simp [matchingMax, hae]
          rw [hmm] at ht
          exact ih hl t ht
      | some e =>
          by_cases he : (lowerEmail e == email) = true
          · have hmm : matchingMax (a :: l) email =
                optionMaxTime (some a.time) (matchingMax l email) := by
              simp [matchingMax, hae, he]
            rw [hmm] at ht
            cases hr : matchingMax l email with
            | none =>
                rw [hr] at ht
                simp only [optionMaxTime, Option.some.injEq] at ht
                rw [← ht]
                exact ha
            | some r =>
                rw [hr] at ht
                simp only [optionMaxTime, Option.some.injEq] at ht
                rw [← ht]
                exact le_max_of_le_left ha
          · have hne : (lowerEmail e == email) = false := by simpa using he
            have hmm : matchingMax (a :: l) email = matchingMax l email := by
              simp [matchingMax, hae, hne]
            rw [hmm] at ht
            exact ih hl t ht

theorem maxWindowLogin_ge_cutoff (activities : List Activity)
    (cutoffDate now : Time) (email : String) (t : Time)
    (h : maxWindowLogin activities cutoffDate now email = some t) :
    cutoffDate ≤ t := by
  unfold maxWindowLogin at h
  refine le_trans (cutoff_le_reportsStartDate cutoffDate now) ?_
  refine matchingMax_lower_bound _ email (reportsStartDate cutoffDate now) ?_ t h
  intro a ha
  have := List.mem_filter.mp ha
  have hb := this.2
  simp at hb
  exact hb.1

/-- C2: a user the auto-run audit classifies INACTIVE is recorded with
the effective last-login: the later of the most recent login event of
the user inside the bounded Reports window and the directory last-login
field; when both are absent the report cell reads Never. -/
theorem C2_effective_last_login (activities : List Activity) (cutoffDate now : Time)
    (u u2 : DirUser)
    (h : classifyUser (getLoginActivityFromReports activities cutoffDate now)
          cutoffDate u = some u2) :
    u2.lastLoginTime =
      optionMaxTime (maxWindowLogin activities cutoffDate now (lowerEmail u.primaryEmail))
        u.lastLoginTime ∧
    (u2.lastLoginTime = none → lastLoginCell u2 = "Never") := by
  have hbridge := lookupLogin_getLoginActivity activities cutoffDate now
    (lowerEmail u.primaryEmail)
  cases hl : lookupLogin (getLoginActivityFromReports activities cutoffDate now)
      (lowerEmail u.primaryEmail) with
  | some t =>
      have hget : cutoffDate ≤ t :=
        maxWindowLogin_ge_cutoff activities cutoffDate now _ t (hbridge ▸ hl)
      simp only [classifyUser, hl] at h
      simp [hget] at h
  | none =>
      have hmw : maxWindowLogin activities cutoffDate now (lowerEmail u.primaryEmail)
          = none := hbridge ▸ hl
      simp only [classifyUser, hl] at h
      cases hd : u.lastLoginTime with
      | some d =>
          rw [hd] at h
          by_cases hcd : cutoffDate ≤ d
          · simp [hcd] at h
          · rw [if_neg (by simp [hcd])] at h
            rw [if_neg (by simp [hcd])] at h
            rw [Option.some.injEq] at h
            have hu2 : u2.lastLoginTime = some d := by rw [← h]
            rw [hu2, hmw]
            refine ⟨rfl, ?_⟩
            intro hnone
            simp at hnone
      | none =>
          rw [hd] at h
          rw [if_neg (by simp)] at h
          rw [if_neg (by simp)] at h
          rw [Option.some.injEq] at h
          have hu2 : u2.lastLoginTime = none := by rw [← h]
          rw [hu2, hmw]
          refine ⟨rfl, ?_⟩
          intro _
          simp [lastLoginCell, hu2]

/-- A user record with neither login signal, used to instantiate
hypothesis-bearing theorems. -/
def sampleInactiveUser : DirUser :=
  { primaryEmail := "user@example.com", lastLoginTime := none, suspended := false,
    name := none, orgUnitPath := none, licenseString := none }

theorem C2_effective_last_login_witness :
    sampleInactiveUser.lastLoginTime =
      optionMaxTime (maxWindowLogin [] 0 0 (lowerEmail sampleInactiveUser.primaryEmail))
        sampleInactiveUser.lastLoginTime ∧
    (sampleInactiveUser.lastLoginTime = none →
      lastLoginCell sampleInactiveUser = "Never") :=
  C2_effective_last_login [] 0 0 sampleInactiveUser sampleInactiveUser (by rfl)

/-- SKU catalog of the suspension scripts: friendly name and SKU id
pairs, in source order (note two distinct names share the id
1010020028, the lookup returns the first). -/
def SKU_CATALOG : List (String × String) :=
  [("Enterprise Plus", "1010020020"),
   ("Enterprise Standard", "1010020028"),
   ("Business Starter", "1010020027"),
   ("Business Standard", "1010020028"),
   ("Business Plus", "1010020025"),
   ("Enterprise Essentials", "1010060003"),
   ("Essentials Starter", "1010060001"),
   ("Cloud Identity Free", "1010010001"),
   ("Cloud Identity Premium", "1010050001"),
   ("Education Plus Legacy (Student)", "1010310003"),
   ("Google-Apps-For-Education", "101031"),
   ("Google-Vault", "1010330003"),
   ("Google-Vault-Former-Employee", "1010330004")]

/-- `getSkuName`: friendly name of the first catalog entry whose id
matches, else the id itself. -/
def getSkuName (skuId : String) : String :=
  match SKU_CATALOG.find? (fun p => p.2 == skuId) with
  | some p => p.1
  | none => skuId

/-- `CONFIG.TARGET_SKU_ID` of the suspension scripts. -/
def TARGET_SKU_ID : String := "1010020020"

/-- `CONFIG.CLOUD_IDENTITY_FREE_SKU_ID` of the license-management
script. -/
def CLOUD_IDENTITY_FREE_SKU_ID : String := "1010010001"

/-- A mutating provider call issued by an executor. -/
inductive MutCall where
  | updateSuspend (email : String)
  | licenseRemove (email : String)
  | licenseInsert (email : String)
deriving DecidableEq, Repr

/-- Outcome oracle for the mutating provider calls on one user: `none`
means the call succeeds, `some e` that it throws with message `e`. -/
structure StepOutcomes where
  suspendErr : Option String
  removeErr : Option String
  insertErr : Option String
deriving DecidableEq, Repr

/-- The safety cap applied before execution:
`if (list.length > CONFIG.MAX_SUSPEND_COUNT) list.splice(CONFIG.MAX_SUSPEND_COUNT)`;
`splice(n)` truncates the list in place to its first `n` entries. -/
def applySafetyLimit (users : List DirUser) (maxCount : Nat) : List DirUser :=
  if users.length > maxCount then users.take maxCount else users

/-- A row of the results table of `suspendUsers` (Enterprise-Plus
suspension script). -/
structure SuspendResult where
  email : String
  name : String
  orgUnitPath : String
  lastLoginTime : String
  licenseString : String
  suspended : Bool
  status : String
  error : Option String
deriving DecidableEq, Repr

/-- The loop body of `suspendUsers` for one user, also recording the
mutating calls issued (the update call is recorded even when its
outcome is an error: the call is made and throws). -/
def suspendOne (dryRun : Bool) (api : StepOutcomes) (user : DirUser) :
    SuspendResult × List MutCall :=
  let base : SuspendResult :=
    { email := user.primaryEmail
      name := user.name.getD "N/A"
      orgUnitPath := user.orgUnitPath.getD "/"
      lastLoginTime := (user.lastLoginTime.map toString).getD "Never"
      licenseString := user.licenseString.getD ""
      suspended := false
      status := "Pending"
      error := none }
  if dryRun then
    ({ base with status := "🔍 DRY RUN - Would suspend", suspended := false }, [])
  else
    match api.suspendErr with
    | none =>
        ({ base with status := "✅ Successfully suspended", suspended := true },
         [MutCall.updateSuspend user.primaryEmail])
    | some e =>
        ({ base with status := "❌ Failed to suspend", error := some e },
         [MutCall.updateSuspend user.primaryEmail])

/-- `suspendUsers`: one result row per processed user, in order, plus
the mutating calls issued; a failure for one user never aborts the
loop. -/
def suspendUsers (dryRun : Bool) (api : String → StepOutcomes) :
    List DirUser → List SuspendResult × List MutCall
  | [] => ([], [])
  | u :: us =>
      ((suspendOne dryRun (api u.primaryEmail) u).1 ::
        (suspendUsers dryRun api us).1,
       (suspendOne dryRun (api u.primaryEmail) u).2 ++
        (suspendUsers dryRun api us).2)

/-- A row of the results table of `suspendAndChangeLicenses`. -/
structure ManageResult where
  email : String
  name : String
  orgUnitPath : String
  lastLoginTime : String
  originalLicenses : String
  suspended : Bool
  suspensionStatus : String
  licenseRemoved : Bool
  licenseRemovalStatus : String
  licenseAssigned : Bool
  licenseAssignmentStatus : String
  newLicenses : String
  error : Option String
deriving DecidableEq, Repr

/-- The configuration switches `suspendAndChangeLicenses` reads. -/
structure ManageConfig where
  DRY_RUN : Bool
  ASSIGN_CLOUD_IDENTITY_FREE : Bool
deriving DecidableEq, Repr

/-- The loop body of `suspendAndChangeLicenses` for one user: STEP 1
suspend, STEP 2 remove the target license, STEP 3 assign the
replacement license when enabled.  A failed suspension returns early
(license steps skipped); a failed removal does not stop the assignment
step; `error` keeps the first error message. -/
def manageOne (cfg : ManageConfig) (api : StepOutcomes) (user : DirUser) :
    ManageResult × List MutCall :=
  let base : ManageResult :=
    { email := user.primaryEmail
      name := user.name.getD "N/A"
      orgUnitPath := user.orgUnitPath.getD "/"
      lastLoginTime := (user.lastLoginTime.map toString).getD "Never"
      originalLicenses := user.licenseString.getD ""
      suspended := false
      suspensionStatus := "Pending"
      licenseRemoved := false
      licenseRemovalStatus := "Pending"
      licenseAssigned := false
      licenseAssignmentStatus := "Pending"
      newLicenses := ""
      error := none }
  if cfg.DRY_RUN then
    ({ base with
        suspensionStatus := "🔍 DRY RUN - Would suspend"
        licenseRemovalStatus := "🔍 DRY RUN - Would remove " ++ getSkuName TARGET_SKU_ID
        licenseAssignmentStatus :=
          if cfg.ASSIGN_CLOUD_IDENTITY_FREE then
            "🔍 DRY RUN - Would assign " ++ getSkuName CLOUD_IDENTITY_FREE_SKU_ID
          else "ℹ️ Skipped (disabled in config)"
        newLicenses :=
          if cfg.ASSIGN_CLOUD_IDENTITY_FREE then
            getSkuName CLOUD_IDENTITY_FREE_SKU_ID
          else "No license assigned" }, [])
  else
    match api.suspendErr with
    | some e =>
        ({ base with suspensionStatus := "❌ Failed: " ++ e, error := some e },
         [MutCall.updateSuspend user.primaryEmail])
    | none =>
        let r1 : ManageResult :=
          { base with suspended := true
                      suspensionStatus := "✅ Successfully suspended" }
        let c1 := [MutCall.updateSuspend user.primaryEmail]
        let step2 : ManageResult × List MutCall :=
          match api.removeErr with
          | none =>
              ({ r1 with licenseRemoved := true
                         licenseRemovalStatus :=
                           "✅ Removed " ++ getSkuName TARGET_SKU_ID },
               c1 ++ [MutCall.licenseRemove user.primaryEmail])
          | some e =>
              ({ r1 with licenseRemovalStatus := "❌ Failed: " ++ e
                         error := if r1.error = none then some e else r1.error },
               c1 ++ [MutCall.licenseRemove user.primaryEmail])
        if cfg.ASSIGN_CLOUD_IDENTITY_FREE then
          match api.insertErr with
          | none =>
              ({ step2.1 with licenseAssigned := true
                              licenseAssignmentStatus :=
                                "✅ Assigned " ++ getSkuName CLOUD_IDENTITY_FREE_SKU_ID
                              newLicenses := getSkuName CLOUD_IDENTITY_FREE_SKU_ID },
               step2.2 ++ [MutCall.licenseInsert user.primaryEmail])
          | some e =>
              ({ step2.1 with licenseAssignmentStatus := "❌ Failed: " ++ e
                              error :=
                                if step2.1.error = none then some e else step2.1.error
                              newLicenses := "License assignment failed" },
               step2.2 ++ [MutCall.licenseInsert user.primaryEmail])
        else
          ({ step2.1 with licenseAssignmentStatus := "ℹ️ Skipped (disabled in config)"
                          newLicenses := "No license assigned" },
           step2.2)

/-- `suspendAndChangeLicenses`: one result row per processed user, in
order, plus the mutating calls issued. -/
def suspendAndChangeLicenses (cfg : ManageConfig) (api : String → StepOutcomes) :
    List DirUser → List ManageResult × List MutCall
  | [] => ([], [])
  | u :: us =>
      ((manageOne cfg (api u.primaryEmail) u).1 ::
        (suspendAndChangeLicenses cfg api us).1,
       (manageOne cfg (api u.primaryEmail) u).2 ++
        (suspendAndChangeLicenses cfg api us).2)

theorem suspendOne_email (dryRun : Bool) (api : StepOutcomes) (user : DirUser) :
    (suspendOne dryRun api user).1.email = user.primaryEmail := by
  unfold suspendOne
  split
  · rfl
  · split <;> rfl

theorem manageOne_email (cfg : ManageConfig) (api : StepOutcomes) (user : DirUser) :
    (manageOne cfg api user).1.email = user.primaryEmail := by
  unfold manageOne
  repeat' split
  all_goals rfl

theorem suspendUsers_emails (dryRun : Bool) (api : String → StepOutcomes)
    (users : List DirUser) :
    ((suspendUsers dryRun api users).1).map (fun r => r.email) =
      users.map (fun u => u.primaryEmail) := by
  induction users with
  | nil => rfl
  | cons u us ih =>
      simp only [suspendUsers, List.map_cons, suspendOne_email, ih]

theorem suspendAndChangeLicenses_emails (cfg : ManageConfig)
    (api : String → StepOutcomes) (users : List DirUser) :
    ((suspendAndChangeLicenses cfg api users).1).map (fun r => r.email) =
      users.map (fun u => u.primaryEmail) := by
  induction users with
  | nil => rfl
  | cons u us ih =>
      simp only [suspendAndChangeLicenses, List.map_cons, manageOne_email, ih]

/-- C4: the safety cap truncates the candidate list to its first
min(L, C) entries before execution, and both executors emit exactly one
row per processed candidate, so the action-results table holds exactly
the first min(L, C) candidates in order and the excess candidates are
never processed and never appear in it. -/
theorem C4_safety_cap (users : List DirUser) (cap : Nat) (dryRun : Bool)
    (cfg : ManageConfig) (api : String → StepOutcomes) :
    applySafetyLimit users cap = users.take (min users.length cap) ∧
    (applySafetyLimit users cap).length = min users.length cap ∧
    ((suspendUsers dryRun api (applySafetyLimit users cap)).1).map
        (fun r => r.email) =
      (users.take (min users.length cap)).map (fun u => u.primaryEmail) ∧
    ((suspendAndChangeLicenses cfg api (applySafetyLimit users cap)).1).map
        (fun r => r.email) =
      (users.take (min users.length cap)).map (fun u => u.primaryEmail) := by
  have htrunc : applySafetyLimit users cap = users.take (min users.length cap) := by
    unfold applySafetyLimit
    split
    · rename_i hgt
      rw [min_eq_right (le_of_lt (by omega))]
    · rename_i hle
      rw [min_eq_left (by omega), List.take_length]
  refine ⟨htrunc, ?_, ?_, ?_⟩
  · rw [htrunc, List.length_take]
    omega
  · rw [htrunc, suspendUsers_emails]
  · rw [htrunc, suspendAndChangeLicenses_emails]

theorem manageOne_dry (cfg : ManageConfig) (api : StepOutcomes) (user : DirUser)
    (h : cfg.DRY_RUN = true) :
    (manageOne cfg api user).2 = [] ∧
    (manageOne cfg api user).1.suspensionStatus = "🔍 DRY RUN - Would suspend" ∧
    (manageOne cfg api user).1.licenseRemovalStatus =
      "🔍 DRY RUN - Would remove " ++ getSkuName TARGET_SKU_ID ∧
    (manageOne cfg api user).1.licenseAssignmentStatus =
      (if cfg.ASSIGN_CLOUD_IDENTITY_FREE then
        "🔍 DRY RUN - Would assign " ++ getSkuName CLOUD_IDENTITY_FREE_SKU_ID
       else "ℹ️ Skipped (disabled in config)") := by
  unfold manageOne
  rw [if_pos h]
  exact ⟨rfl, rfl, rfl, rfl⟩

theorem suspendOne_dry (api : StepOutcomes) (user : DirUser) :
    (suspendOne true api user).2 = [] ∧
    (suspendOne true api user).1.status = "🔍 DRY RUN - Would suspend" ∧
    (suspendOne true api user).1.suspended = false :=
  ⟨rfl, rfl, rfl⟩

/-- C5: with the dry-run flag enabled, neither executor issues any
mutating provider call — the list of update/remove/insert invocations
is empty — and every emitted record instead carries the simulated
dry-run status describing what would have happened. -/
theorem C5_dry_run (cfg : ManageConfig) (api : String → StepOutcomes)
    (users : List DirUser) (hdry : cfg.DRY_RUN = true) :
    (suspendAndChangeLicenses cfg api users).2 = [] ∧
    (∀ r ∈ (suspendAndChangeLicenses cfg api users).1,
      r.suspensionStatus = "🔍 DRY RUN - Would suspend" ∧
      r.licenseRemovalStatus =
        "🔍 DRY RUN - Would remove " ++ getSkuName TARGET_SKU_ID ∧
      r.licenseAssignmentStatus =
        (if cfg.ASSIGN_CLOUD_IDENTITY_FREE then
          "🔍 DRY RUN - Would assign " ++ getSkuName CLOUD_IDENTITY_FREE_SKU_ID
         else "ℹ️ Skipped (disabled in config)")) ∧
    (suspendUsers true api users).2 = [] ∧
    (∀ r ∈ (suspendUsers true api users).1,
      r.status = "🔍 DRY RUN - Would suspend" ∧ r.suspended = false) := by
  refine ⟨?_, ?_, ?_, ?_⟩
  · induction users with
    | nil => rfl
    | cons u us ih =>
        simp only [suspendAndChangeLicenses,
          (manageOne_dry cfg (api u.primaryEmail) u hdry).1, List.nil_append, ih]
  · induction users with
    | nil => intro r hr; simp [suspendAndChangeLicenses] at hr
    | cons u us ih =>
        intro r hr
        rcases List.mem_cons.mp hr with hr | hr
        · obtain ⟨_, h1, h2, h3⟩ := manageOne_dry cfg (api u.primaryEmail) u hdry
          rw [hr]
          exact ⟨h1, h2, h3⟩
        · exact ih r hr
  · induction users with
    | nil => rfl
    | cons u us ih =>
        simp only [suspendUsers, (suspendOne_dry (api u.primaryEmail) u).1,
          List.nil_append, ih]
  · induction users with
    | nil => intro r hr; simp [suspendUsers] at hr
    | cons u us ih =>
        intro r hr
        rcases List.mem_cons.mp hr with hr | hr
        · obtain ⟨_, h1, h2⟩ := suspendOne_dry (api u.primaryEmail) u
          rw [hr]
          exact ⟨h1, h2⟩
        · exact ih r hr

theorem C5_dry_run_witness :
    (suspendAndChangeLicenses ⟨true, true⟩ (fun _ => ⟨none, none, none⟩)
      [sampleInactiveUser]).2 = [] :=
  (C5_dry_run ⟨true, true⟩ (fun _ => ⟨none, none, none⟩) [sampleInactiveUser] rfl).1

/-- The live configuration with replacement-license assignment enabled. -/
def cfgLive : ManageConfig := ⟨false, true⟩

/-- An outcome oracle where suspension succeeds, the license removal
throws with message boom, and the insert succeeds. -/
def apiRemoveFails : StepOutcomes := ⟨none, some "boom", none⟩

/-- C6 counterexample: a concrete user for whom the suspend step
succeeds and the license-removal step fails: the replacement-license
assignment is nevertheless still attempted (the insert call appears in
the issued-calls list and the record shows a successful assignment),
refuting that a failed earlier step skips all later steps. -/
theorem C6_counterexample :
    apiRemoveFails.removeErr = some "boom" ∧
    (manageOne cfgLive apiRemoveFails sampleInactiveUser).2 =
      [MutCall.updateSuspend "user@example.com",
       MutCall.licenseRemove "user@example.com",
       MutCall.licenseInsert "user@example.com"] ∧
    (manageOne cfgLive apiRemoveFails sampleInactiveUser).1.licenseAssigned = true ∧
    (manageOne cfgLive apiRemoveFails sampleInactiveUser).1.error = some "boom" :=
  ⟨rfl, rfl, rfl, rfl⟩

theorem suspendAndChangeLicenses_length (cfg : ManageConfig)
    (api : String → StepOutcomes) (users : List DirUser) :
    ((suspendAndChangeLicenses cfg api users).1).length = users.length := by
  induction users with
  | nil => rfl
  | cons u us ih => simp only [suspendAndChangeLicenses, List.length_cons, ih]

/-- C6 amended: a failed suspension skips both license steps and marks
the record with that error, and processing continues (one record per
candidate, no global abort); but a failed license removal does not
skip the replacement-license assignment, which is still attempted when
enabled, with the first error retained on the record. -/
theorem C6_amended (cfg : ManageConfig) (api : String → StepOutcomes)
    (users : List DirUser) (user : DirUser) (o : StepOutcomes) (e : String)
    (hlive : cfg.DRY_RUN = false) :
    (o.suspendErr = some e →
      (manageOne cfg o user).2 = [MutCall.updateSuspend user.primaryEmail] ∧
      (manageOne cfg o user).1.error = some e) ∧
    (o.suspendErr = none → o.removeErr = some e →
      cfg.ASSIGN_CLOUD_IDENTITY_FREE = true →
      (manageOne cfg o user).2 =
        [MutCall.updateSuspend user.primaryEmail,
         MutCall.licenseRemove user.primaryEmail,
         MutCall.licenseInsert user.primaryEmail] ∧
      (manageOne cfg o user).1.error = some e) ∧
    ((suspendAndChangeLicenses cfg api users).1).length = users.length := by
  refine ⟨?_, ?_, suspendAndChangeLicenses_length cfg api users⟩
  · intro hs
    unfold manageOne
    rw [if_neg (by rw [hlive]; simp), hs]
    exact ⟨rfl, rfl⟩
  · intro hs hr ha
    unfold manageOne
    rw [if_neg (by rw [hlive]; simp), hs, hr, if_pos ha]
    cases hi : o.insertErr with
    | none => exact ⟨rfl, rfl⟩
    | some e2 => exact ⟨rfl, rfl⟩

theorem C6_amended_witness :
    (manageOne cfgLive apiRemoveFails sampleInactiveUser).2 =
      [MutCall.updateSuspend sampleInactiveUser.primaryEmail,
       MutCall.licenseRemove sampleInactiveUser.primaryEmail,
       MutCall.licenseInsert sampleInactiveUser.primaryEmail] ∧
    (manageOne cfgLive apiRemoveFails sampleInactiveUser).1.error = some "boom" :=
  (C6_amended cfgLive (fun _ => apiRemoveFails) [] sampleInactiveUser
    apiRemoveFails "boom" rfl).2.1 rfl rfl rfl

/-- A Directory API group record, restricted to the fields the audit
reads. -/
structure Group where
  email : String
  name : String
  description : Option String
  directMembersCount : Nat
  adminCreated : Bool
deriving DecidableEq, Repr

/-- A row of the accumulated audit results of the groups audit. -/
structure GroupResult where
  groupName : String
  groupEmail : String
  description : String
  directMembersCount : Nat
  adminCreated : Bool
  hasOwner : Bool
  hasManager : Bool
  missingRoles : String
deriving DecidableEq, Repr

/-- The page responses of `Members.list` for one group and role:
element `i` answers the `i`-th page request, the last element carries
no nextPageToken, and an `error` element models the call throwing. -/
abbrev MemberPages := List (Except String (List String))

/-- `checkGroupHasRole`: walks the member pages; a thrown call returns
false, a page with at least one member returns true, and exhausting the
pages returns false. -/
def checkGroupHasRole : MemberPages → Bool
  | [] => false
  | (Except.error _) :: _ => false
  | (Except.ok members) :: rest =>
      if members.length > 0 then true else checkGroupHasRole rest

/-- Builds the missing-roles cell: the missing role names joined by a
comma. -/
def missingRolesString (hasOwner hasManager : Bool) : String :=
  String.intercalate ", "
    ((if !hasOwner then ["OWNER"] else []) ++
     (if !hasManager then ["MANAGER"] else []))

/-- The per-group body of the audit loop: checks the OWNER and MANAGER
roles through the members-listing provider `env` and returns a result
row exactly when either role is missing. -/
def processGroup (env : String → String → MemberPages) (g : Group) :
    Option GroupResult :=
  let hasOwner := checkGroupHasRole (env g.email "OWNER")
  let hasManager := checkGroupHasRole (env g.email "MANAGER")
  if !hasOwner || !hasManager then
    some { groupName := g.name
           groupEmail := g.email
           description := g.description.getD "N/A"
           directMembersCount := g.directMembersCount
           adminCreated := g.adminCreated
           hasOwner := hasOwner
           hasManager := hasManager
           missingRoles := missingRolesString hasOwner hasManager }
  else none

/-- The batch loop of `auditGroupsWithoutOwners`: processes the batch
groups in order, stopping early when the wall-clock budget runs out;
`allowed` is the number of iterations the time budget permits (the
elapsed-time check runs before each group).  Returns the batch results
and `currentIndex`, the number of groups actually processed. -/
def auditBatchLoop (env : String → String → MemberPages) :
    List Group → Nat → List GroupResult × Nat
  | _, 0 => ([], 0)
  | [], _ => ([], 0)
  | g :: rest, Nat.succ allowed =>
      let next := auditBatchLoop env rest allowed
      (match processGroup env g with
       | some r => r :: next.1
       | none => next.1,
       next.2 + 1)

/-- The Script Properties the batch audit persists, with decoded
payloads (the string encoding and its failure modes are modelled
separately by `loadCheckpoint`); `none` models a deleted or absent
property. -/
structure PropStore where
  processedIndex : Option Nat
  auditResults : Option (List GroupResult)
  groupsCache : Option (List Group)
deriving DecidableEq, Repr

/-- `getAllGroups`: returns the cached group list when present,
otherwise fetches the list from the Directory API (`apiGroups`) and
caches it. -/
def getAllGroups (store : PropStore) (apiGroups : List Group) :
    List Group × PropStore :=
  match store.groupsCache with
  | some gs => (gs, store)
  | none => (apiGroups, { store with groupsCache := some apiGroups })

/-- `CONFIG.BATCH_SIZE` of the batch audit. -/
def BATCH_SIZE : Nat := 500

/-- One invocation of `auditGroupsWithoutOwners`: load the (cached)
group list and the checkpoint, process one batch starting at the
persisted index, persist the advanced index and the appended results,
and on cycle completion emit the accumulated results to the final
report and delete the index and results properties.  The second
component is the emitted report, `none` while the audit is still in
progress. -/
def auditGroupsWithoutOwners (store : PropStore) (apiGroups : List Group)
    (env : String → String → MemberPages) (allowed : Nat) :
    PropStore × Option (List GroupResult) :=
  let fetched := getAllGroups store apiGroups
  let allGroups := fetched.1
  let store1 := fetched.2
  let totalGroups := allGroups.length
  let processedIndex := store1.processedIndex.getD 0
  let allResults := store1.auditResults.getD []
  let batchStart := processedIndex
  let batchEnd := min (processedIndex + BATCH_SIZE) totalGroups
  let batchGroups := (allGroups.drop batchStart).take (batchEnd - batchStart)
  let looped := auditBatchLoop env batchGroups allowed
  let allResults2 := allResults ++ looped.1
  let processedIndex2 := batchStart + looped.2
  let store2 : PropStore :=
    { store1 with
        processedIndex := some processedIndex2
        auditResults := some allResults2 }
  if processedIndex2 ≥ totalGroups then
    ({ store2 with processedIndex := none, auditResults := none },
     some allResults2)
  else
    (store2, none)

/-- `resetAudit`: deletes all three persisted properties. -/
def resetAudit (_store : PropStore) : PropStore :=
  { processedIndex := none, auditResults := none, groupsCache := none }

theorem getAllGroups_cache (store : PropStore) (apiGroups : List Group) :
    (getAllGroups store apiGroups).2.groupsCache =
      some (getAllGroups store apiGroups).1 := by
  unfold getAllGroups
  cases hc : store.groupsCache
  · rfl
  · simp [hc]

theorem getAllGroups_processedIndex (store : PropStore) (apiGroups : List Group) :
    (getAllGroups store apiGroups).2.processedIndex = store.processedIndex := by
  unfold getAllGroups
  cases hc : store.groupsCache <;> rfl

theorem getAllGroups_auditResults (store : PropStore) (apiGroups : List Group) :
    (getAllGroups store apiGroups).2.auditResults = store.auditResults := by
  unfold getAllGroups
  cases hc : store.groupsCache <;> rfl

/-- A sample group used in concrete evaluations. -/
def sampleGroup : Group :=
  { email := "g@example.com", name := "G", description := none,
    directMembersCount := 0, adminCreated := false }

/-- A members-listing provider whose every call throws. -/
def envErr : String → String → MemberPages := fun _ _ => [Except.error "denied"]

/-- A checkpoint store one group short of cycle completion, with the
group list already cached. -/
def storeX : PropStore :=
  { processedIndex := some 0, auditResults := some [], groupsCache := some [sampleGroup] }

/-- C7 counterexample: a run that completes the cycle (a report is
emitted) clears the index and the accumulated results but leaves the
candidate-list cache in place, contrary to the claim that the terminal
flush clears all checkpoint state including the candidate-list cache. -/
theorem C7_counterexample :
    ((auditGroupsWithoutOwners storeX [] envErr 1).2).isSome = true ∧
    (auditGroupsWithoutOwners storeX [] envErr 1).1.processedIndex = none ∧
    (auditGroupsWithoutOwners storeX [] envErr 1).1.auditResults = none ∧
    (auditGroupsWithoutOwners storeX [] envErr 1).1.groupsCache = some [sampleGroup] :=
  ⟨rfl, rfl, rfl, rfl⟩

/-- C7 amended: when the persisted index reaches the cached-list
length, the run emits the full accumulated results (the previously
persisted results are a prefix of the emitted report) and clears the
index and accumulated-results properties, so the next invocation
starts a fresh cycle; the candidate-list cache is retained and is
cleared only by the reset function. -/
theorem C7_amended (store : PropStore) (apiGroups : List Group)
    (env : String → String → MemberPages) (allowed : Nat)
    (emitted : List GroupResult)
    (h : (auditGroupsWithoutOwners store apiGroups env allowed).2 = some emitted) :
    (auditGroupsWithoutOwners store apiGroups env allowed).1.processedIndex = none ∧
    (auditGroupsWithoutOwners store apiGroups env allowed).1.auditResults = none ∧
    (auditGroupsWithoutOwners store apiGroups env allowed).1.groupsCache =
      some (getAllGroups store apiGroups).1 ∧
    (∃ batch, emitted = store.auditResults.getD [] ++ batch) ∧
    (resetAudit (auditGroupsWithoutOwners store apiGroups env allowed).1).groupsCache
      = none := by
  simp only [auditGroupsWithoutOwners] at h ⊢
  split at h
  · rename_i hterm
    dsimp only at h
    rw [Option.some.injEq] at h
    rw [if_pos hterm]
    refine ⟨rfl, rfl, ?_, ?_, rfl⟩
    · exact getAllGroups_cache store apiGroups
    · rw [← h, getAllGroups_auditResults]
      exact ⟨_, rfl⟩
  · simp at h

theorem C7_amended_witness :
    (auditGroupsWithoutOwners storeX [] envErr 1).1.processedIndex = none ∧
    (auditGroupsWithoutOwners storeX [] envErr 1).1.auditResults = none ∧
    (auditGroupsWithoutOwners storeX [] envErr 1).1.groupsCache =
      some (getAllGroups storeX []).1 ∧
    (∃ batch, (processGroup envErr sampleGroup).toList = storeX.auditResults.getD [] ++ batch) ∧
    (resetAudit (auditGroupsWithoutOwners storeX [] envErr 1).1).groupsCache = none := by
  have h := C7_amended storeX [] envErr 1
    ((processGroup envErr sampleGroup).toList) rfl
  exact ⟨h.1, h.2.1, h.2.2.1, h.2.2.2.1, h.2.2.2.2⟩

theorem auditRun_monotone (store : PropStore) (apiGroups : List Group)
    (env : String → String → MemberPages) (allowed : Nat)
    (h : (auditGroupsWithoutOwners store apiGroups env allowed).2 = none) :
    ∃ n rs,
      (auditGroupsWithoutOwners store apiGroups env allowed).1.processedIndex
        = some n ∧
      (auditGroupsWithoutOwners store apiGroups env allowed).1.auditResults
        = some rs ∧
      store.processedIndex.getD 0 ≤ n ∧
      n ≤ ((auditGroupsWithoutOwners store apiGroups env allowed).1.groupsCache.getD
            []).length ∧
      ∃ batch, rs = store.auditResults.getD [] ++ batch := by
  simp only [auditGroupsWithoutOwners] at h ⊢
  split at h
  · simp at h
  · rename_i hcond
    rw [if_neg hcond]
    refine ⟨_, _, rfl, rfl, ?_, ?_, ?_⟩
    · rw [getAllGroups_processedIndex]
      exact Nat.le_add_right _ _
    · dsimp only
      rw [getAllGroups_cache, Option.getD_some]
      omega
    · rw [getAllGroups_auditResults]
      exact ⟨_, rfl⟩

/-- The inputs of one batch-audit invocation: the groups the Directory
API would return, the members-listing provider, and the number of loop
iterations the time budget permits. -/
structure RunInput where
  apiGroups : List Group
  env : String → String → MemberPages
  allowed : Nat

/-- A sequence of batch-audit invocations against the persisted
store. -/
def auditSeq (store : PropStore) : List RunInput → PropStore
  | [] => store
  | i :: is =>
      auditSeq (auditGroupsWithoutOwners store i.apiGroups i.env i.allowed).1 is

/-- Holds when no run of the sequence completes the cycle (no terminal
flush is emitted). -/
def noFlush (store : PropStore) : List RunInput → Prop
  | [] => True
  | i :: is =>
      (auditGroupsWithoutOwners store i.apiGroups i.env i.allowed).2 = none ∧
      noFlush (auditGroupsWithoutOwners store i.apiGroups i.env i.allowed).1 is

/-- C8: after every run that does not complete the cycle the persisted
index is defined, at least the previously persisted index (hence at
least 0) and at most the cached-list length, and the persisted results
are the previous results extended by the batch results; consequently
across any sequence of runs without a terminal flush the index is
non-decreasing and the accumulated results only grow. -/
theorem C8_checkpoint_monotonicity (store : PropStore) (apiGroups : List Group)
    (env : String → String → MemberPages) (allowed : Nat)
    (runs : List RunInput) :
    ((auditGroupsWithoutOwners store apiGroups env allowed).2 = none →
      ∃ n rs,
        (auditGroupsWithoutOwners store apiGroups env allowed).1.processedIndex
          = some n ∧
        (auditGroupsWithoutOwners store apiGroups env allowed).1.auditResults
          = some rs ∧
        store.processedIndex.getD 0 ≤ n ∧
        n ≤ ((auditGroupsWithoutOwners store apiGroups env allowed).1.groupsCache.getD
              []).length ∧
        ∃ batch, rs = store.auditResults.getD [] ++ batch) ∧
    (noFlush store runs →
      store.processedIndex.getD 0 ≤ (auditSeq store runs).processedIndex.getD 0 ∧
      ∃ batch, (auditSeq store runs).auditResults.getD [] =
        store.auditResults.getD [] ++ batch) := by
  constructor
  · exact auditRun_monotone store apiGroups env allowed
  · induction runs generalizing store with
    | nil =>
        intro _
        exact ⟨le_refl _, [], by simp [auditSeq]⟩
    | cons i is ih =>
        intro hnf
        obtain ⟨h1, h2⟩ := hnf
        obtain ⟨n, rs, hidx, hres, hmono, hbound, batch, hb⟩ :=
          auditRun_monotone store i.apiGroups i.env i.allowed h1
        obtain ⟨hle, batch2, hb2⟩ := ih _ h2
        have hstep : (auditGroupsWithoutOwners store i.apiGroups i.env
            i.allowed).1.processedIndex.getD 0 = n := by
          rw [hidx, Option.getD_some]
        constructor
        · calc store.processedIndex.getD 0 ≤ n := hmono
            _ = (auditGroupsWithoutOwners store i.apiGroups i.env
                  i.allowed).1.processedIndex.getD 0 := hstep.symm
            _ ≤ (auditSeq store (i :: is)).processedIndex.getD 0 := by
                simp only [auditSeq]
                exact hle
        · refine ⟨batch ++ batch2, ?_⟩
          have hr : (auditGroupsWithoutOwners store i.apiGroups i.env
              i.allowed).1.auditResults.getD [] = rs := by
            rw [hres, Option.getD_some]
          simp only [auditSeq]
          rw [hb2, hr, hb, List.append_assoc]

theorem C8_checkpoint_monotonicity_witness :
    ∃ n rs,
      (auditGroupsWithoutOwners
        ⟨some 0, some [], some [sampleGroup, sampleGroup]⟩ [] envErr 1).1.processedIndex
        = some n ∧
      (auditGroupsWithoutOwners
        ⟨some 0, some [], some [sampleGroup, sampleGroup]⟩ [] envErr 1).1.auditResults
        = some rs ∧
      (⟨some 0, some [], some [sampleGroup, sampleGroup]⟩ :
        PropStore).processedIndex.getD 0 ≤ n ∧
      n ≤ ((auditGroupsWithoutOwners
        ⟨some 0, some [], some [sampleGroup, sampleGroup]⟩ [] envErr 1).1.groupsCache.getD
          []).length ∧
      ∃ batch, rs = (⟨some 0, some [], some [sampleGroup, sampleGroup]⟩ :
        PropStore).auditResults.getD [] ++ batch :=
  (C8_checkpoint_monotonicity ⟨some 0, some [], some [sampleGroup, sampleGroup]⟩
    [] envErr 1 []).1 rfl

/-- A members-listing provider serving fixed page sequences for the
OWNER role and for any other role. -/
def envOf (ownerPages managerPages : MemberPages) :
    String → String → MemberPages :=
  fun _ role => if role == "OWNER" then ownerPages else managerPages

/-- C10: a thrown members-listing call makes `checkGroupHasRole`
return false — immediately, and also after any number of empty pages —
and consequently the audit record of a group whose membership cannot be
read is identical to the record of a group that genuinely has no member
in that role: the two cases are indistinguishable in the report. -/
theorem C10_provider_error_reads_as_missing (e : String) (rest : MemberPages)
    (n : Nat) (g : Group) (mPages : MemberPages) :
    checkGroupHasRole (Except.error e :: rest) = false ∧
    checkGroupHasRole
      (List.replicate n (Except.ok ([] : List String)) ++ Except.error e :: rest)
      = false ∧
    processGroup (envOf (Except.error e :: rest) mPages) g =
      processGroup (envOf [Except.ok ([] : List String)] mPages) g := by
  refine ⟨rfl, ?_, rfl⟩
  induction n with
  | zero => rfl
  | succ k ih =>
      rw [List.replicate_succ, List.cons_append]
      simpa [checkGroupHasRole] using ih

/-- The double-quote character. -/
def dquoteChar : Char := Char.ofNat 34

/-- The opening curly-brace character. -/
def lbraceChar : Char := Char.ofNat 123

/-- The closing curly-brace character. -/
def rbraceChar : Char := Char.ofNat 125

/-- The backslash character. -/
def backslashChar : Char := Char.ofNat 92

/-- Drops leading JSON whitespace (space, tab, newline, carriage
return). -/
def skipWs (cs : List Char) : List Char :=
  cs.dropWhile (fun c => c == ' ' || c.toNat == 9 || c.toNat == 10 || c.toNat == 13)

/-- JavaScript `parseInt` in base 10: skips leading whitespace, reads
an optional sign and the leading decimal digits; no digit means NaN,
modelled as `none`.  It never throws. -/
def parseIntJs (s : String) : Option Int :=
  let cs := skipWs s.data
  let signed : Int × List Char :=
    match cs with
    | '-' :: rest => (-1, rest)
    | '+' :: rest => (1, rest)
    | _ => (1, cs)
  let ds := signed.2.takeWhile Char.isDigit
  if ds.isEmpty then none
  else some (signed.1 * (ds.foldl (fun acc c => acc * 10 + ((c.toNat : Int) - 48)) 0))

/-- Expects the given character (after whitespace). -/
def expectChar (c : Char) (cs : List Char) : Except String (List Char) :=
  match skipWs cs with
  | d :: rest => if d == c then Except.ok rest else Except.error "Unexpected token"
  | [] => Except.error "Unexpected end of JSON input"

/-- Parses a JSON string literal (escape sequences are not produced by
the payloads at hand and are rejected). -/
def parseJsonString : List Char → Except String (String × List Char)
  | [] => Except.error "Expected string"
  | c :: rest =>
      if c == dquoteChar then
        let content := rest.takeWhile (fun d => !(d == dquoteChar))
        if content.any (fun d => d == backslashChar) then
          Except.error "Unsupported escape"
        else
          match rest.drop content.length with
          | d :: rest2 =>
              if d == dquoteChar then Except.ok (String.mk content, rest2)
              else Except.error "Unterminated string"
          | [] => Except.error "Unterminated string"
      else Except.error "Expected string"

/-- Parses a JSON natural number literal. -/
def parseJsonNat (cs : List Char) : Except String (Nat × List Char) :=
  let ds := cs.takeWhile Char.isDigit
  if ds.isEmpty then Except.error "Expected number"
  else Except.ok (ds.foldl (fun acc c => acc * 10 + (c.toNat - 48)) 0, cs.drop ds.length)

/-- Parses a JSON boolean literal. -/
def parseJsonBool : List Char → Except String (Bool × List Char)
  | 't' :: 'r' :: 'u' :: 'e' :: rest => Except.ok (true, rest)
  | 'f' :: 'a' :: 'l' :: 's' :: 'e' :: rest => Except.ok (false, rest)
  | _ => Except.error "Expected boolean"

/-- Parses the given object key followed by a colon. -/
def parseKey (key : String) (cs : List Char) : Except String (List Char) :=
  match parseJsonString (skipWs cs) with
  | Except.error e => Except.error e
  | Except.ok (s, rest) =>
      if s == key then expectChar ':' rest else Except.error "Unexpected key"

/-- Parses one serialized audit-result object, with the keys in the
order `JSON.stringify` emits them for the object literal built by the
audit loop. -/
def parseResultObject (cs : List Char) : Except String (GroupResult × List Char) := do
  let cs ← expectChar lbraceChar cs
  let cs ← parseKey "groupName" cs
  let (groupName, cs) ← parseJsonString (skipWs cs)
  let cs ← expectChar ',' cs
  let cs ← parseKey "groupEmail" cs
  let (groupEmail, cs) ← parseJsonString (skipWs cs)
  let cs ← expectChar ',' cs
  let cs ← parseKey "description" cs
  let (description, cs) ← parseJsonString (skipWs cs)
  let cs ← expectChar ',' cs
  let cs ← parseKey "directMembersCount" cs
  let (directMembersCount, cs) ← parseJsonNat (skipWs cs)
  let cs ← expectChar ',' cs
  let cs ← parseKey "adminCreated" cs
  let (adminCreated, cs) ← parseJsonBool (skipWs cs)
  let cs ← expectChar ',' cs
  let cs ← parseKey "hasOwner" cs
  let (hasOwner, cs) ← parseJsonBool (skipWs cs)
  let cs ← expectChar ',' cs
  let cs ← parseKey "hasManager" cs
  let (hasManager, cs) ← parseJsonBool (skipWs cs)
  let cs ← expectChar ',' cs
  let cs ← parseKey "missingRoles" cs
  let (missingRoles, cs) ← parseJsonString (skipWs cs)
  let cs ← expectChar rbraceChar cs
  Except.ok ({ groupName, groupEmail, description, directMembersCount,
               adminCreated, hasOwner, hasManager, missingRoles }, cs)

/-- Parses the comma-separated objects of a non-empty JSON array and
its closing bracket; `fuel` bounds the recursion. -/
def parseItems : Nat → List Char → Except String (List GroupResult × List Char)
  | 0, _ => Except.error "Out of fuel"
  | Nat.succ fuel, cs => do
      let (r, cs) ← parseResultObject cs
      match skipWs cs with
      | c :: rest =>
          if c == ',' then do
            let (rs, cs2) ← parseItems fuel rest
            Except.ok (r :: rs, cs2)
          else if c == ']' then Except.ok ([r], rest)
          else Except.error "Unexpected token"
      | [] => Except.error "Unexpected end of JSON input"

/-- `JSON.parse` on the persisted audit-results payload: succeeds on a
serialized array of audit-result objects and throws (returns an error)
on malformed input. -/
def parseResultsJson (s : String) : Except String (List GroupResult) := do
  let cs := skipWs s.data
  let cs ← expectChar '[' cs
  match skipWs cs with
  | c :: rest =>
      if c == ']' then
        if (skipWs rest).isEmpty then Except.ok []
        else Except.error "Unexpected trailing characters"
      else do
        let (rs, cs2) ← parseItems (cs.length + 1) cs
        if (skipWs cs2).isEmpty then Except.ok rs
        else Except.error "Unexpected trailing characters"
  | [] => Except.error "Unexpected end of JSON input"

/-- The checkpoint load of the batch audit:
`parseInt(props.getProperty('processedIndex') || '0')` and
`JSON.parse(props.getProperty('auditResults') || '[]')`.  `getProperty`
yields `none` for a missing property; `parseInt` never throws but
yields NaN (`none`) on non-numeric text, while `JSON.parse` throws on
malformed input and no surrounding try/catch exists, so the error
propagates out of the load. -/
def loadCheckpoint (idxProp resProp : Option String) :
    Except String (Option Int × List GroupResult) :=
  match parseResultsJson (resProp.getD "[]") with
  | Except.ok rs => Except.ok (parseIntJs (idxProp.getD "0"), rs)
  | Except.error e => Except.error e

/-- C9 counterexample: corrupted checkpoint state is not treated as
defaults: a corrupted results property makes the load throw a parse
error instead of yielding an empty list, and a corrupted index
property loads as NaN, which is not the default 0. -/
theorem C9_counterexample :
    loadCheckpoint none (some "oops") = Except.error "Unexpected token" ∧
    loadCheckpoint (some "garbage") none = Except.ok (none, []) ∧
    (none : Option Int) ≠ some 0 :=
  ⟨rfl, rfl, by simp⟩

/-- C9 amended: MISSING checkpoint state loads as the defaults (index
0, empty results) without raising; CORRUPTED state however is not
handled: a non-numeric index property loads as NaN rather than 0, and
malformed results JSON makes the load throw. -/
theorem C9_amended :
    loadCheckpoint none none = Except.ok (some 0, []) ∧
    loadCheckpoint (some "garbage") none = Except.ok (none, []) ∧
    loadCheckpoint none (some "oops") = Except.error "Unexpected token" :=
  ⟨rfl, rfl, rfl⟩

end AppScripts
